import Mathlib

/-!
Shallow embedding of the interactive masking canvas of CanvasBoard.tsx:
viewport transform (scale/offset), pointer gesture handling (pan and draw
modes), stroke accumulation, and mask export.  Coordinates are modelled as
rationals; canvas pixel rasterization is modelled at the level of the draw
commands the code issues (dimensions, fill/stroke colors, per-path line
width and point list).
-/

namespace CanvasBoard

/-- A 2D point, as in types.ts (`Point`). -/
@[ext]
structure Point where
  x : ℚ
  y : ℚ
deriving DecidableEq, Repr

/-- A committed stroke, as in types.ts (`Path`): points in image space plus
the brush diameter stored with the stroke. -/
structure Path where
  points : List Point
  size : ℚ
deriving DecidableEq, Repr

/-- Tool mode, as in types.ts (`ToolMode`). -/
inductive ToolMode where
  | draw
  | pan
deriving DecidableEq, Repr

/-- The loaded image: only its native width/height matter to the core. -/
structure Image where
  width : ℚ
  height : ℚ
deriving DecidableEq, Repr

/-- The component state of CanvasBoard: scale, offset, isDragging, lastPos,
paths (committed strokes), currentPath (candidate stroke), imgObj. -/
structure BoardState where
  scale : ℚ
  offset : Point
  isDragging : Bool
  lastPos : Point
  paths : List Path
  currentPath : List Point
  imgObj : Option Image
deriving DecidableEq, Repr

/-- `getCanvasCoords` (CanvasBoard.tsx lines 131-137): inverse viewport
transform, `(screenPos - offset) / scale`. -/
def getCanvasCoords (s : BoardState) (screenPos : Point) : Point :=
  { x := (screenPos.x - s.offset.x) / s.scale
  , y := (screenPos.y - s.offset.y) / s.scale }

/-- `handlePointerDown` (lines 139-150): no-op without an image; otherwise
sets isDragging and lastPos, and in draw mode starts the candidate stroke
with the single converted point. -/
def handlePointerDown (mode : ToolMode) (s : BoardState) (pos : Point) : BoardState :=
  if s.imgObj = none then s
  else
    let s1 := { s with isDragging := true, lastPos := pos }
    if mode = ToolMode.draw then
      { s1 with currentPath := [getCanvasCoords s1 pos] }
    else s1

/-- `handlePointerMove` (lines 152-167): no-op unless dragging with an image;
pan mode adds the pointer delta to the offset, draw mode appends the
converted point to the candidate stroke; both update lastPos. -/
def handlePointerMove (mode : ToolMode) (s : BoardState) (pos : Point) : BoardState :=
  if s.isDragging = false ∨ s.imgObj = none then s
  else
    match mode with
    | ToolMode.pan =>
        { s with
          offset := { x := s.offset.x + (pos.x - s.lastPos.x)
                    , y := s.offset.y + (pos.y - s.lastPos.y) }
          lastPos := pos }
    | ToolMode.draw =>
        { s with
          currentPath := s.currentPath ++ [getCanvasCoords s pos]
          lastPos := pos }

/-- `handlePointerUp` (lines 169-175): if dragging in draw mode with a
non-empty candidate, append `{ points, size := brushSize }` (brushSize is the
prop value at pointer-up time) to the committed paths; always clear
isDragging and the candidate. -/
def handlePointerUp (mode : ToolMode) (brushSize : ℚ) (s : BoardState) : BoardState :=
  let s1 :=
    if s.isDragging = true ∧ mode = ToolMode.draw ∧ 0 < s.currentPath.length then
      { s with paths := s.paths ++ [{ points := s.currentPath, size := brushSize }] }
    else s
  { s1 with isDragging := false, currentPath := [] }

/-- `handleWheel` (lines 178-197): cursor-anchored zoom.  newScale is
clamped to [0.1, 10]; offset is corrected so the mouse point stays fixed. -/
def handleWheel (s : BoardState) (mouse : Point) (deltaY : ℚ) : BoardState :=
  if s.imgObj = none then s
  else
    let delta := -deltaY * (1 / 1000)
    let newScale := min (max (1 / 10) (s.scale + delta)) 10
    let scaleRatio := newScale / s.scale
    { s with
      scale := newScale
      offset := { x := mouse.x - (mouse.x - s.offset.x) * scaleRatio
                , y := mouse.y - (mouse.y - s.offset.y) * scaleRatio } }

/-- The image-load effect (lines 29-54, onload branch): store the image,
compute the fit-and-center scale/offset from the container's client size,
and clear the committed paths. -/
def loadImage (s : BoardState) (img : Image) (clientWidth clientHeight : ℚ) : BoardState :=
  let scaleX := clientWidth / img.width
  let scaleY := clientHeight / img.height
  let fitScale := min (min scaleX scaleY) 1 * (9 / 10)
  { s with
    imgObj := some img
    scale := fitScale
    offset := { x := (clientWidth - img.width * fitScale) / 2
              , y := (clientHeight - img.height * fitScale) / 2 }
    paths := [] }

/-- `undo` (lines 235-237): `paths.slice(0, -1)`, i.e. drop the last stroke. -/
def undo (s : BoardState) : BoardState :=
  { s with paths := s.paths.dropLast }

/-- `resetMask` (lines 232-234): clear the committed paths. -/
def resetMask (s : BoardState) : BoardState :=
  { s with paths := [] }

/-- Canvas colors used by the mask export. -/
inductive Color where
  | black
  | white
deriving DecidableEq, Repr

/-- One polyline stroke command of the export pass. -/
structure DrawCmd where
  lineWidth : ℚ
  points : List Point
deriving DecidableEq, Repr

/-- The off-screen mask raster produced by `getMaskDataURL`: buffer
dimensions, background fill, stroke color, and the stroke commands in order. -/
structure MaskExport where
  width : ℚ
  height : ℚ
  fillStyle : Color
  strokeStyle : Color
  cmds : List DrawCmd
deriving DecidableEq, Repr

/-- `getMaskDataURL` (lines 201-231): null without an image; otherwise an
off-screen canvas of the image's native size, filled black, each committed
path with at least one point stroked white at `lineWidth = path.size`. -/
def getMaskDataURL (s : BoardState) : Option MaskExport :=
  match s.imgObj with
  | none => none
  | some img =>
      some
        { width := img.width
        , height := img.height
        , fillStyle := Color.black
        , strokeStyle := Color.white
        , cmds :=
            (s.paths.filter fun p => 1 ≤ p.points.length).map
              fun p => { lineWidth := p.size, points := p.points } }

/-- A viewport-changing user operation: a pointer gesture event in pan mode,
or a wheel zoom. -/
inductive ViewportOp where
  | down (pos : Point)
  | move (pos : Point)
  | up (brushSize : ℚ)
  | wheel (mouse : Point) (deltaY : ℚ)

/-- Apply one viewport operation. -/
def applyViewportOp (s : BoardState) : ViewportOp → BoardState
  | ViewportOp.down pos => handlePointerDown ToolMode.pan s pos
  | ViewportOp.move pos => handlePointerMove ToolMode.pan s pos
  | ViewportOp.up brushSize => handlePointerUp ToolMode.pan brushSize s
  | ViewportOp.wheel mouse deltaY => handleWheel s mouse deltaY

/-- Apply a sequence of viewport operations in order. -/
def applyViewportOps (s : BoardState) (ops : List ViewportOp) : BoardState :=
  ops.foldl applyViewportOp s

/-- A full draw-mode gesture: pointer-down at pos0, pointer-moves at the
given positions, pointer-up with the brush size current at that moment. -/
def drawGesture (s : BoardState) (pos0 : Point) (moves : List Point) (brushSize : ℚ) :
    BoardState :=
  handlePointerUp ToolMode.draw brushSize
    (moves.foldl (handlePointerMove ToolMode.draw) (handlePointerDown ToolMode.draw s pos0))

/-- A full pan-mode gesture: pointer-down at pos0, pointer-moves at the
given positions, pointer-up. -/
def panGesture (s : BoardState) (pos0 : Point) (moves : List Point) (brushSize : ℚ) :
    BoardState :=
  handlePointerUp ToolMode.pan brushSize
    (moves.foldl (handlePointerMove ToolMode.pan) (handlePointerDown ToolMode.pan s pos0))

/-- A concrete test image. -/
def testImg : Image := { width := 100, height := 100 }

/-- The component's initial state (scale 1, offset 0, nothing loaded). -/
def initState : BoardState :=
  { scale := 1
  , offset := { x := 0, y := 0 }
  , isDragging := false
  , lastPos := { x := 0, y := 0 }
  , paths := []
  , currentPath := []
  , imgObj := none }

/-- The initial state with the test image loaded directly. -/
def loadedState : BoardState := { initState with imgObj := some testImg }

/-- A state mid-drag in draw mode (candidate has one point). -/
def dragState : BoardState :=
  { loadedState with
    isDragging := true
    currentPath := [{ x := 5, y := 5 }] }

/-- A state with one committed stroke. -/
def maskState : BoardState :=
  { loadedState with paths := [{ points := [{ x := 1, y := 1 }], size := 3 }] }

/-! ### Helper lemmas -/

lemma wheel_newScale_pos (a : ℚ) : (0 : ℚ) < min (max (1 / 10) a) 10 :=
  lt_min (lt_of_lt_of_le (by norm_num) (le_max_left _ _)) (by norm_num)

/-- `getMaskDataURL` only reads `imgObj` and `paths`. -/
lemma getMaskDataURL_congr (s t : BoardState)
    (h1 : s.imgObj = t.imgObj) (h2 : s.paths = t.paths) :
    getMaskDataURL s = getMaskDataURL t := by
  unfold getMaskDataURL
  rw [h1, h2]

/-- Every viewport operation (pan-mode pointer event or wheel zoom) leaves
`imgObj` and `paths` unchanged. -/
lemma applyViewportOp_frame (s : BoardState) (op : ViewportOp) :
    (applyViewportOp s op).imgObj = s.imgObj ∧ (applyViewportOp s op).paths = s.paths := by
  cases op with
  | down pos =>
      simp only [applyViewportOp, handlePointerDown]
      split <;> simp
  | move pos =>
      simp only [applyViewportOp, handlePointerMove]
      split <;> simp
  | up brushSize =>
      simp only [applyViewportOp, handlePointerUp]
      split <;> simp_all
  | wheel mouse deltaY =>
      simp only [applyViewportOp, handleWheel]
      split <;> simp

/-- One draw-mode move on a dragging state with an image appends exactly one
point and changes nothing else but `lastPos`. -/
lemma drawMove_eq (t : BoardState) (pos : Point)
    (hd : t.isDragging = true) (hi : t.imgObj ≠ none) :
    handlePointerMove ToolMode.draw t pos
      = { t with currentPath := t.currentPath ++ [getCanvasCoords t pos], lastPos := pos } := by
  unfold handlePointerMove
  simp [hd, hi]

/-- Invariant of a run of draw-mode moves started on a dragging state with
an image: dragging and image persist, committed paths and viewport are
untouched, and the candidate grows by one point per move. -/
lemma foldl_drawMove (moves : List Point) (t : BoardState)
    (hd : t.isDragging = true) (hi : t.imgObj ≠ none) :
    (moves.foldl (handlePointerMove ToolMode.draw) t).isDragging = true ∧
    (moves.foldl (handlePointerMove ToolMode.draw) t).imgObj = t.imgObj ∧
    (moves.foldl (handlePointerMove ToolMode.draw) t).paths = t.paths ∧
    (moves.foldl (handlePointerMove ToolMode.draw) t).currentPath.length
        = t.currentPath.length + moves.length ∧
    (moves.foldl (handlePointerMove ToolMode.draw) t).scale = t.scale ∧
    (moves.foldl (handlePointerMove ToolMode.draw) t).offset = t.offset := by
  induction moves generalizing t with
  | nil => simp [hd]
  | cons p ps ih =>
      have hstep := drawMove_eq t p hd hi
      have hd2 : (handlePointerMove ToolMode.draw t p).isDragging = true := by
        rw [hstep]; exact hd
      have hi2 : (handlePointerMove ToolMode.draw t p).imgObj ≠ none := by
        rw [hstep]; exact hi
      have := ih (handlePointerMove ToolMode.draw t p) hd2 hi2
      simp only [List.foldl_cons]
      refine ⟨this.1, ?_, ?_, ?_, ?_, ?_⟩
      · rw [this.2.1, hstep]
      · rw [this.2.2.1, hstep]
      · rw [this.2.2.2.1, hstep]
        simp [List.length_append]
        omega
      · rw [this.2.2.2.2.1, hstep]
      · rw [this.2.2.2.2.2, hstep]

/-- One pan-mode move on a dragging state with an image shifts the offset by
the pointer delta and updates `lastPos`; nothing else changes. -/
lemma panMove_eq (t : BoardState) (pos : Point)
    (hd : t.isDragging = true) (hi : t.imgObj ≠ none) :
    handlePointerMove ToolMode.pan t pos
      = { t with
          offset := { x := t.offset.x + (pos.x - t.lastPos.x)
                    , y := t.offset.y + (pos.y - t.lastPos.y) }
          lastPos := pos } := by
  unfold handlePointerMove
  simp [hd, hi]

/-- Invariant of a run of pan-mode moves started on a dragging state with an
image: dragging and image persist, paths, candidate and scale are untouched,
and `offset − lastPos` is constant (each move adds the pointer delta). -/
lemma foldl_panMove (moves : List Point) (t : BoardState)
    (hd : t.isDragging = true) (hi : t.imgObj ≠ none) :
    (moves.foldl (handlePointerMove ToolMode.pan) t).isDragging = true ∧
    (moves.foldl (handlePointerMove ToolMode.pan) t).imgObj = t.imgObj ∧
    (moves.foldl (handlePointerMove ToolMode.pan) t).paths = t.paths ∧
    (moves.foldl (handlePointerMove ToolMode.pan) t).currentPath = t.currentPath ∧
    (moves.foldl (handlePointerMove ToolMode.pan) t).scale = t.scale ∧
    (moves.foldl (handlePointerMove ToolMode.pan) t).offset.x
        - (moves.foldl (handlePointerMove ToolMode.pan) t).lastPos.x
        = t.offset.x - t.lastPos.x ∧
    (moves.foldl (handlePointerMove ToolMode.pan) t).offset.y
        - (moves.foldl (handlePointerMove ToolMode.pan) t).lastPos.y
        = t.offset.y - t.lastPos.y := by
  induction moves generalizing t with
  | nil => simp [hd]
  | cons p ps ih =>
      have hstep := panMove_eq t p hd hi
      have hd2 : (handlePointerMove ToolMode.pan t p).isDragging = true := by
        rw [hstep]; exact hd
      have hi2 : (handlePointerMove ToolMode.pan t p).imgObj ≠ none := by
        rw [hstep]; exact hi
      have := ih (handlePointerMove ToolMode.pan t p) hd2 hi2
      simp only [List.foldl_cons]
      refine ⟨this.1, ?_, ?_, ?_, ?_, ?_, ?_⟩
      · rw [this.2.1, hstep]
      · rw [this.2.2.1, hstep]
      · rw [this.2.2.2.1, hstep]
      · rw [this.2.2.2.2.1, hstep]
      · rw [this.2.2.2.2.2.1, hstep]
        simp only
        ring
      · rw [this.2.2.2.2.2.2, hstep]
        simp only
        ring

/-- Pointer-down with an image loaded, fully evaluated for draw mode. -/
lemma drawDown_eq (s : BoardState) (pos : Point) (hi : s.imgObj ≠ none) :
    handlePointerDown ToolMode.draw s pos
      = { s with isDragging := true, lastPos := pos
               , currentPath := [getCanvasCoords { s with isDragging := true, lastPos := pos } pos] } := by
  unfold handlePointerDown
  simp [hi]

/-- Pointer-down with an image loaded, fully evaluated for pan mode. -/
lemma panDown_eq (s : BoardState) (pos : Point) (hi : s.imgObj ≠ none) :
    handlePointerDown ToolMode.pan s pos
      = { s with isDragging := true, lastPos := pos } := by
  unfold handlePointerDown
  simp [hi]

/-- Pointer-up in draw mode on a dragging state with a non-empty candidate
appends the candidate, with the brush size passed at pointer-up time. -/
lemma drawUp_eq (t : BoardState) (brushSize : ℚ)
    (hd : t.isDragging = true) (hcp : 0 < t.currentPath.length) :
    (handlePointerUp ToolMode.draw brushSize t).paths
      = t.paths ++ [{ points := t.currentPath, size := brushSize }] := by
  unfold handlePointerUp
  simp [hd, hcp]

/-- Pointer-up while not dragging never touches the committed paths. -/
lemma up_no_drag_paths (mode : ToolMode) (brushSize : ℚ) (t : BoardState)
    (hd : t.isDragging = false) :
    (handlePointerUp mode brushSize t).paths = t.paths := by
  unfold handlePointerUp
  simp [hd]

/-- Pointer-up in pan mode only clears `isDragging` and the candidate. -/
lemma panUp_eq (t : BoardState) (brushSize : ℚ) :
    handlePointerUp ToolMode.pan brushSize t
      = { t with isDragging := false, currentPath := [] } := by
  unfold handlePointerUp
  simp

/-- Iterating `undo` at least `paths.length` times empties the list. -/
lemma undo_iterate_empty (n : ℕ) :
    ∀ s : BoardState, s.paths.length ≤ n → (undo^[n] s).paths = [] := by
  induction n with
  | zero =>
      intro s h
      exact List.length_eq_zero.mp (Nat.le_zero.mp h)
  | succ n ih =>
      intro s h
      rw [Function.iterate_succ_apply]
      apply ih
      have hu : (undo s).paths = s.paths.dropLast := rfl
      rw [hu, List.length_dropLast]
      omega

/-! ### Claim theorems -/

/-- C1: for a fixed committed stroke list and loaded image, the output of
`getMaskDataURL` is identical under any sequence of pan and zoom operations
performed before export: viewport state does not affect the rasterized mask. -/
theorem mask_export_viewport_independent (s : BoardState) (ops : List ViewportOp) :
    getMaskDataURL (applyViewportOps s ops) = getMaskDataURL s := by
  induction ops generalizing s with
  | nil => rfl
  | cons op ops ih =>
      have h := applyViewportOp_frame s op
      calc getMaskDataURL (applyViewportOps s (op :: ops))
          = getMaskDataURL (applyViewportOps (applyViewportOp s op) ops) := rfl
        _ = getMaskDataURL (applyViewportOp s op) := ih _
        _ = getMaskDataURL s := getMaskDataURL_congr _ _ h.1 h.2

/-- C2: cursor-anchored zoom invariance.  With an image loaded, a positive
scale, and a wheel delta keeping the unclamped result within [0.1, 10],
the image-space point under the anchor is the same before and after
`handleWheel` (exactly, over the rationals). -/
theorem zoom_anchor_invariance (s : BoardState) (img : Image)
    (himg : s.imgObj = some img) (p : Point) (deltaY : ℚ)
    (hpos : 0 < s.scale)
    (hlo : 1 / 10 ≤ s.scale + -deltaY * (1 / 1000))
    (hhi : s.scale + -deltaY * (1 / 1000) ≤ 10) :
    getCanvasCoords (handleWheel s p deltaY) p = getCanvasCoords s p := by
  have hnone : ¬ s.imgObj = none := by simp [himg]
  unfold handleWheel getCanvasCoords
  simp only [hnone, if_false]
  have hns : (0 : ℚ) < min (max (1 / 10) (s.scale + -deltaY * (1 / 1000))) 10 :=
    wheel_newScale_pos _
  ext
  · field_simp
    ring
  · field_simp
    ring

/-- C2 witness: a concrete instance (scale 1, zoom in by wheel −100 at
anchor (3,4)). -/
theorem zoom_anchor_invariance_witness :
    getCanvasCoords (handleWheel loadedState { x := 3, y := 4 } (-100)) { x := 3, y := 4 }
      = getCanvasCoords loadedState { x := 3, y := 4 } :=
  zoom_anchor_invariance loadedState testImg rfl { x := 3, y := 4 } (-100)
    (by norm_num [loadedState, initState])
    (by norm_num [loadedState, initState])
    (by norm_num [loadedState, initState])

/-- C3: fit-to-container on image load.  For positive image and container
dimensions the computed scale is `min(cw/iw, ch/ih, 1) * 0.9` and the offset
centers the scaled image in the container. -/
theorem fit_to_container_correct (s : BoardState) (img : Image) (cw ch : ℚ)
    (hiw : 0 < img.width) (hih : 0 < img.height) (hcw : 0 < cw) (hch : 0 < ch) :
    (loadImage s img cw ch).scale
        = min (min (cw / img.width) (ch / img.height)) 1 * (9 / 10) ∧
    (loadImage s img cw ch).offset.x
        = (cw - img.width * (loadImage s img cw ch).scale) / 2 ∧
    (loadImage s img cw ch).offset.y
        = (ch - img.height * (loadImage s img cw ch).scale) / 2 := by
  refine ⟨rfl, rfl, rfl⟩

/-- C3 witness: a 100×100 image in a 200×400 container. -/
theorem fit_to_container_correct_witness :
    (loadImage initState testImg 200 400).scale
        = min (min (200 / testImg.width) (400 / testImg.height)) 1 * (9 / 10) ∧
    (loadImage initState testImg 200 400).offset.x
        = (200 - testImg.width * (loadImage initState testImg 200 400).scale) / 2 ∧
    (loadImage initState testImg 200 400).offset.y
        = (400 - testImg.height * (loadImage initState testImg 200 400).scale) / 2 :=
  fit_to_container_correct initState testImg 200 400
    (by norm_num [testImg]) (by norm_num [testImg]) (by norm_num) (by norm_num)

/-- C8: loading a new image clears the committed stroke list and resets the
viewport to the fit-and-center values, whatever the prior state was. -/
theorem new_image_load_reset (s : BoardState) (img : Image) (cw ch : ℚ) :
    (loadImage s img cw ch).paths = [] ∧
    (loadImage s img cw ch).imgObj = some img ∧
    (loadImage s img cw ch).scale
        = min (min (cw / img.width) (ch / img.height)) 1 * (9 / 10) ∧
    (loadImage s img cw ch).offset.x
        = (cw - img.width * (min (min (cw / img.width) (ch / img.height)) 1 * (9 / 10))) / 2 ∧
    (loadImage s img cw ch).offset.y
        = (ch - img.height * (min (min (cw / img.width) (ch / img.height)) 1 * (9 / 10))) / 2 :=
  ⟨rfl, rfl, rfl, rfl, rfl⟩

/-- C4: with an image loaded, a draw gesture of pointer-down, N pointer-moves
and pointer-up appends exactly one stroke with N+1 points after the prior
strokes, which are unchanged; and pointer-up while not dragging leaves the
committed list unchanged. -/
theorem stroke_commit_atomicity (s : BoardState) (img : Image)
    (himg : s.imgObj = some img) (pos0 : Point) (moves : List Point) (brushSize : ℚ) :
    (∃ stroke : Path,
        (drawGesture s pos0 moves brushSize).paths = s.paths ++ [stroke] ∧
        stroke.points.length = moves.length + 1) ∧
    (∀ t : BoardState, t.isDragging = false →
        (handlePointerUp ToolMode.draw brushSize t).paths = t.paths) := by
  have hi : s.imgObj ≠ none := by simp [himg]
  constructor
  · have hdown := drawDown_eq s pos0 hi
    have hd1 : (handlePointerDown ToolMode.draw s pos0).isDragging = true := by
      rw [hdown]
    have hi1 : (handlePointerDown ToolMode.draw s pos0).imgObj ≠ none := by
      rw [hdown]; exact hi
    have hfold := foldl_drawMove moves _ hd1 hi1
    have hlen1 : (handlePointerDown ToolMode.draw s pos0).currentPath.length = 1 := by
      rw [hdown]
      rfl
    have hlen : (moves.foldl (handlePointerMove ToolMode.draw)
        (handlePointerDown ToolMode.draw s pos0)).currentPath.length = moves.length + 1 := by
      rw [hfold.2.2.2.1, hlen1]
      omega
    refine ⟨{ points := (moves.foldl (handlePointerMove ToolMode.draw)
                (handlePointerDown ToolMode.draw s pos0)).currentPath
            , size := brushSize }, ?_, hlen⟩
    rw [drawGesture, drawUp_eq _ _ hfold.1 (by omega)]
    congr 1
    rw [hfold.2.2.1, hdown]
  · intro t hd
    exact up_no_drag_paths ToolMode.draw brushSize t hd

/-- C4 witness: one move, so the committed stroke has two points. -/
theorem stroke_commit_atomicity_witness :
    (∃ stroke : Path,
        (drawGesture loadedState { x := 1, y := 2 } [{ x := 3, y := 4 }] 5).paths
          = loadedState.paths ++ [stroke] ∧
        stroke.points.length = ([({ x := 3, y := 4 } : Point)]).length + 1) ∧
    (∀ t : BoardState, t.isDragging = false →
        (handlePointerUp ToolMode.draw 5 t).paths = t.paths) :=
  stroke_commit_atomicity loadedState testImg rfl { x := 1, y := 2 } [{ x := 3, y := 4 }] 5

/-- C5 counterexample: the stroke started while the brush setting was 10 but
committed after the setting changed to 20 carries size 20, not the size at
gesture start (pointer-down reads no brush size at all; the size is sampled
at pointer-up). -/
theorem frozen_diameter_counterexample :
    (handlePointerUp ToolMode.draw 20
        (handlePointerDown ToolMode.draw loadedState { x := 5, y := 5 })).paths
      = [{ points := [{ x := 5, y := 5 }], size := 20 }] ∧ (20 : ℚ) ≠ 10 := by
  constructor
  · simp [handlePointerUp, handlePointerDown, getCanvasCoords,
      loadedState, initState, testImg]
  · norm_num

/-- C5 amended: the committed stroke carries the brush diameter in effect at
commit time (pointer-up), whatever the setting was at gesture start. -/
theorem stroke_diameter_at_commit (s : BoardState) (brushSize : ℚ)
    (hd : s.isDragging = true) (hcp : 0 < s.currentPath.length) :
    (handlePointerUp ToolMode.draw brushSize s).paths
      = s.paths ++ [{ points := s.currentPath, size := brushSize }] :=
  drawUp_eq s brushSize hd hcp

/-- C5 amended witness: committing `dragState` with brush size 20. -/
theorem stroke_diameter_at_commit_witness :
    (handlePointerUp ToolMode.draw 20 dragState).paths
      = dragState.paths ++ [{ points := dragState.currentPath, size := 20 }] :=
  stroke_diameter_at_commit dragState 20 rfl (by decide)

/-- C6 counterexample: loading a 1000×1000 image into a 50×50 container — a
state reached by one public image-load operation — yields scale 9/200, which
is below the 0.1 lower bound the claim asserts for every reachable state. -/
theorem scale_clamp_counterexample :
    (loadImage initState { width := 1000, height := 1000 } 50 50).scale = 9 / 200 ∧
    ¬ (1 / 10 ≤ (loadImage initState { width := 1000, height := 1000 } 50 50).scale) := by
  constructor
  · simp [loadImage, initState]
    norm_num
  · simp [loadImage, initState]
    norm_num

/-- C6 amended: wheel zoom always clamps the resulting scale into [0.1, 10]
(silently, never rejecting); pan-mode pointer events preserve the scale; and
the image-load fit keeps the scale positive for positive image and container
dimensions, but does not clamp it to the zoom range. -/
theorem scale_clamp_amended (s : BoardState) (img : Image)
    (himg : s.imgObj = some img) (mouse : Point) (deltaY : ℚ)
    (t : BoardState) (p : Point) (brushSize : ℚ)
    (u : BoardState) (img2 : Image) (cw ch : ℚ)
    (hiw : 0 < img2.width) (hih : 0 < img2.height) (hcw : 0 < cw) (hch : 0 < ch) :
    (1 / 10 ≤ (handleWheel s mouse deltaY).scale ∧ (handleWheel s mouse deltaY).scale ≤ 10) ∧
    (handlePointerDown ToolMode.pan t p).scale = t.scale ∧
    (handlePointerMove ToolMode.pan t p).scale = t.scale ∧
    (handlePointerUp ToolMode.pan brushSize t).scale = t.scale ∧
    0 < (loadImage u img2 cw ch).scale := by
  have hnone : ¬ s.imgObj = none := by simp [himg]
  refine ⟨?_, ?_, ?_, ?_, ?_⟩
  · unfold handleWheel
    simp only [hnone, if_false]
    exact ⟨le_min (le_max_left _ _) (by norm_num), min_le_right _ _⟩
  · unfold handlePointerDown
    split <;> simp
  · unfold handlePointerMove
    split <;> simp
  · rw [panUp_eq]
  · show 0 < min (min (cw / img2.width) (ch / img2.height)) 1 * (9 / 10)
    have h1 : 0 < cw / img2.width := div_pos hcw hiw
    have h2 : 0 < ch / img2.height := div_pos hch hih
    have h3 : (0 : ℚ) < min (min (cw / img2.width) (ch / img2.height)) 1 :=
      lt_min (lt_min h1 h2) (by norm_num)
    have h4 : (0 : ℚ) < 9 / 10 := by norm_num
    exact mul_pos h3 h4

/-- C6 amended witness: concrete instantiation of every conjunct. -/
theorem scale_clamp_amended_witness :
    (1 / 10 ≤ (handleWheel loadedState { x := 0, y := 0 } 500).scale ∧
      (handleWheel loadedState { x := 0, y := 0 } 500).scale ≤ 10) ∧
    (handlePointerDown ToolMode.pan initState { x := 1, y := 1 }).scale = initState.scale ∧
    (handlePointerMove ToolMode.pan initState { x := 1, y := 1 }).scale = initState.scale ∧
    (handlePointerUp ToolMode.pan 7 initState).scale = initState.scale ∧
    0 < (loadImage initState testImg 200 400).scale :=
  scale_clamp_amended loadedState testImg rfl { x := 0, y := 0 } 500
    initState { x := 1, y := 1 } 7 initState testImg 200 400
    (by norm_num [testImg]) (by norm_num [testImg]) (by norm_num) (by norm_num)

/-- C7: `getMaskDataURL` returns none exactly when no image is loaded; with
an image it returns a raster of the image's native width and height, filled
black with strokes in white, and (when every committed stroke is non-empty,
as commits guarantee) one stroke command per committed path at
`lineWidth = path.size`, with no scale division. -/
theorem mask_export_contract (s : BoardState) :
    (getMaskDataURL s = none ↔ s.imgObj = none) ∧
    (∀ img : Image, s.imgObj = some img →
        ∃ m : MaskExport, getMaskDataURL s = some m ∧
          m.width = img.width ∧ m.height = img.height ∧
          m.fillStyle = Color.black ∧ m.strokeStyle = Color.white ∧
          ((∀ p ∈ s.paths, p.points ≠ []) →
            m.cmds = s.paths.map fun p => { lineWidth := p.size, points := p.points })) := by
  constructor
  · unfold getMaskDataURL
    cases h : s.imgObj <;> simp
  · intro img himg
    refine ⟨{ width := img.width, height := img.height
            , fillStyle := Color.black, strokeStyle := Color.white
            , cmds := (s.paths.filter fun p => 1 ≤ p.points.length).map
                        fun p => { lineWidth := p.size, points := p.points } }
          , ?_, rfl, rfl, rfl, rfl, ?_⟩
    · unfold getMaskDataURL
      rw [himg]
    · intro hall
      have hfil : (s.paths.filter fun p => 1 ≤ p.points.length) = s.paths := by
        apply List.filter_eq_self.mpr
        intro a ha
        simp only [decide_eq_true_eq]
        have := List.length_pos.mpr (hall a ha)
        omega
      rw [hfil]

/-- C7 witness: a state with one committed one-point stroke of size 3. -/
theorem mask_export_contract_witness :
    (getMaskDataURL maskState = none ↔ maskState.imgObj = none) ∧
    (∀ img : Image, maskState.imgObj = some img →
        ∃ m : MaskExport, getMaskDataURL maskState = some m ∧
          m.width = img.width ∧ m.height = img.height ∧
          m.fillStyle = Color.black ∧ m.strokeStyle = Color.white ∧
          ((∀ p ∈ maskState.paths, p.points ≠ []) →
            m.cmds = maskState.paths.map fun p => { lineWidth := p.size, points := p.points })) :=
  mask_export_contract maskState

/-- C9: `undo` drops exactly the last committed stroke when there is one, is
the identity on an empty list, never touches the candidate stroke, and
iterating it `paths.length` times always reaches the empty list. -/
theorem undo_semantics (s : BoardState) :
    (undo s).paths = s.paths.dropLast ∧
    (∀ l : List Path, ∀ a : Path, s.paths = l ++ [a] → (undo s).paths = l) ∧
    (s.paths = [] → undo s = s) ∧
    (undo s).currentPath = s.currentPath ∧
    (undo^[s.paths.length] s).paths = [] := by
  refine ⟨rfl, ?_, ?_, rfl, undo_iterate_empty s.paths.length s le_rfl⟩
  · intro l a h
    show s.paths.dropLast = l
    rw [h, List.dropLast_concat]
  · intro h
    cases s
    simp_all [undo]

/-- C9 witness: undo on the one-stroke state. -/
theorem undo_semantics_witness :
    (undo maskState).paths = maskState.paths.dropLast ∧
    (∀ l : List Path, ∀ a : Path, maskState.paths = l ++ [a] → (undo maskState).paths = l) ∧
    (maskState.paths = [] → undo maskState = maskState) ∧
    (undo maskState).currentPath = maskState.currentPath ∧
    (undo^[maskState.paths.length] maskState).paths = [] :=
  undo_semantics maskState

/-- C10: a complete pan-mode gesture (down, moves, up) with an image loaded
and no candidate in flight leaves the committed strokes, the candidate and
the scale unchanged, moves the offset by the accumulated pointer deltas
(final lastPos minus the down position), and each individual pan move adds
exactly the pointer delta to the offset while touching neither paths,
candidate nor scale. -/
theorem pan_gesture_frame (s : BoardState) (img : Image)
    (himg : s.imgObj = some img) (hcp : s.currentPath = [])
    (pos0 : Point) (moves : List Point) (brushSize : ℚ) :
    (panGesture s pos0 moves brushSize).paths = s.paths ∧
    (panGesture s pos0 moves brushSize).currentPath = s.currentPath ∧
    (panGesture s pos0 moves brushSize).scale = s.scale ∧
    (panGesture s pos0 moves brushSize).imgObj = s.imgObj ∧
    (panGesture s pos0 moves brushSize).offset.x
        = s.offset.x + ((panGesture s pos0 moves brushSize).lastPos.x - pos0.x) ∧
    (panGesture s pos0 moves brushSize).offset.y
        = s.offset.y + ((panGesture s pos0 moves brushSize).lastPos.y - pos0.y) ∧
    (∀ t : BoardState, ∀ p : Point, t.isDragging = true → t.imgObj ≠ none →
        (handlePointerMove ToolMode.pan t p).offset.x = t.offset.x + (p.x - t.lastPos.x) ∧
        (handlePointerMove ToolMode.pan t p).offset.y = t.offset.y + (p.y - t.lastPos.y) ∧
        (handlePointerMove ToolMode.pan t p).scale = t.scale ∧
        (handlePointerMove ToolMode.pan t p).paths = t.paths ∧
        (handlePointerMove ToolMode.pan t p).currentPath = t.currentPath) := by
  have hi : s.imgObj ≠ none := by simp [himg]
  have hdown := panDown_eq s pos0 hi
  have hd1 : (handlePointerDown ToolMode.pan s pos0).isDragging = true := by
    rw [hdown]
  have hi1 : (handlePointerDown ToolMode.pan s pos0).imgObj ≠ none := by
    rw [hdown]; exact hi
  have hfold := foldl_panMove moves _ hd1 hi1
  have hup := panUp_eq (moves.foldl (handlePointerMove ToolMode.pan)
      (handlePointerDown ToolMode.pan s pos0)) brushSize
  refine ⟨?_, ?_, ?_, ?_, ?_, ?_, ?_⟩
  · rw [panGesture, hup]
    show (moves.foldl (handlePointerMove ToolMode.pan)
        (handlePointerDown ToolMode.pan s pos0)).paths = s.paths
    rw [hfold.2.2.1, hdown]
  · rw [panGesture, hup, hcp]
  · rw [panGesture, hup]
    show (moves.foldl (handlePointerMove ToolMode.pan)
        (handlePointerDown ToolMode.pan s pos0)).scale = s.scale
    rw [hfold.2.2.2.2.1, hdown]
  · rw [panGesture, hup]
    show (moves.foldl (handlePointerMove ToolMode.pan)
        (handlePointerDown ToolMode.pan s pos0)).imgObj = s.imgObj
    rw [hfold.2.1, hdown]
  · rw [panGesture, hup]
    have hox : (handlePointerDown ToolMode.pan s pos0).offset.x = s.offset.x := by
      rw [hdown]
    have hlx : (handlePointerDown ToolMode.pan s pos0).lastPos.x = pos0.x := by
      rw [hdown]
    have hx := hfold.2.2.2.2.2.1
    rw [hox, hlx] at hx
    simp only
    linarith
  · rw [panGesture, hup]
    have hoy : (handlePointerDown ToolMode.pan s pos0).offset.y = s.offset.y := by
      rw [hdown]
    have hly : (handlePointerDown ToolMode.pan s pos0).lastPos.y = pos0.y := by
      rw [hdown]
    have hy := hfold.2.2.2.2.2.2
    rw [hoy, hly] at hy
    simp only
    linarith
  · intro t p hd hti
    rw [panMove_eq t p hd hti]
    exact ⟨rfl, rfl, rfl, rfl, rfl⟩

/-- C10 witness: a pan gesture with one move on the loaded state. -/
theorem pan_gesture_frame_witness :
    (panGesture loadedState { x := 0, y := 0 } [{ x := 10, y := 10 }] 7).paths
        = loadedState.paths ∧
    (panGesture loadedState { x := 0, y := 0 } [{ x := 10, y := 10 }] 7).currentPath
        = loadedState.currentPath ∧
    (panGesture loadedState { x := 0, y := 0 } [{ x := 10, y := 10 }] 7).scale
        = loadedState.scale ∧
    (panGesture loadedState { x := 0, y := 0 } [{ x := 10, y := 10 }] 7).imgObj
        = loadedState.imgObj ∧
    (panGesture loadedState { x := 0, y := 0 } [{ x := 10, y := 10 }] 7).offset.x
        = loadedState.offset.x
          + ((panGesture loadedState { x := 0, y := 0 } [{ x := 10, y := 10 }] 7).lastPos.x
              - ({ x := 0, y := 0 } : Point).x) ∧
    (panGesture loadedState { x := 0, y := 0 } [{ x := 10, y := 10 }] 7).offset.y
        = loadedState.offset.y
          + ((panGesture loadedState { x := 0, y := 0 } [{ x := 10, y := 10 }] 7).lastPos.y
              - ({ x := 0, y := 0 } : Point).y) ∧
    (∀ t : BoardState, ∀ p : Point, t.isDragging = true → t.imgObj ≠ none →
        (handlePointerMove ToolMode.pan t p).offset.x = t.offset.x + (p.x - t.lastPos.x) ∧
        (handlePointerMove ToolMode.pan t p).offset.y = t.offset.y + (p.y - t.lastPos.y) ∧
        (handlePointerMove ToolMode.pan t p).scale = t.scale ∧
        (handlePointerMove ToolMode.pan t p).paths = t.paths ∧
        (handlePointerMove ToolMode.pan t p).currentPath = t.currentPath) :=
  pan_gesture_frame loadedState testImg rfl rfl { x := 0, y := 0 } [{ x := 10, y := 10 }] 7

end CanvasBoard
